import Mathlib

/-!
Shallow embedding of the deterministic monotonic clock facility of the
`boa` repository:

* `src/core/engine/src/context/time.rs` — the engine's global time slot
  (`GLOBAL_TIME_NS`, `GLOBAL_BUMP`), `set_time_nanos`, `clear_time`,
  `next_duration`, the value types `JsInstant` / `JsDuration` and their
  arithmetic, and the two clocks `StdClock` and `FixedClock`.
* `src/utils/monotonic_time/src/lib.rs` — a second crate whose statics
  duplicate the slot, disjoint from the engine's.

Machine integers are modelled as `Nat` with explicit range hypotheses
(`< 2^32`, `< 2^64`, `< 2^128`); Rust `as` casts are modelled with `%`;
panics are modelled as `none`.  The global mutable statics are modelled by
explicit state passing over `TimeState`.
-/

namespace Boa

/-- Number of values of `u32`, that is `2 ^ 32`. -/
def U32 : Nat := 4294967296

/-- Number of values of `u64`, that is `2 ^ 64`. -/
def U64 : Nat := 18446744073709551616

/-- Number of values of `u128`, that is `2 ^ 128`. -/
def U128 : Nat := 340282366920938463463374607431768211456

/-- Nanoseconds per second, the `1_000_000_000` constant of the source. -/
def NANOS_PER_SEC : Nat := 1000000000

/-! ### Rust `core::time::Duration`

The source stores time values in `core::time::Duration`, whose
representation is a `u64` seconds field and a `u32` sub-second nanoseconds
field kept `< 10^9`. -/

/-- Model of Rust `core::time::Duration`: seconds and sub-second
nanoseconds.  The Rust invariants (`secs` fits `u64`, `nanos < 10^9`) are
carried as the separate predicate `Duration.wf`. -/
structure Duration where
  secs : Nat
  nanos : Nat
deriving DecidableEq, Repr

/-- Range invariant guaranteed by Rust's `Duration` representation:
`secs` is a `u64` and the sub-second `nanos` is below one second. -/
def Duration.wf (d : Duration) : Prop :=
  d.secs < U64 ∧ d.nanos < NANOS_PER_SEC

instance (d : Duration) : Decidable d.wf := by
  unfold Duration.wf; infer_instance

/-- Rust `Duration::as_nanos` (returns `u128`; never truncates for
well-formed durations, so it is modelled exactly). -/
def Duration.as_nanos (d : Duration) : Nat :=
  d.secs * NANOS_PER_SEC + d.nanos

/-- Rust `Duration::as_millis` (returns `u128`). -/
def Duration.as_millis (d : Duration) : Nat :=
  d.secs * 1000 + d.nanos / 1000000

/-- Rust `Duration::as_secs`. -/
def Duration.as_secs (d : Duration) : Nat :=
  d.secs

/-- Rust `Duration::new(secs, nanos)`: when `nanos < 10^9` it stores the
pair as given; otherwise it carries `nanos / 10^9` whole seconds into
`secs` with `checked_add`, panicking (`none`) when the `u64` seconds
overflow. -/
def Duration.new (secs nanos : Nat) : Option Duration :=
  if nanos < NANOS_PER_SEC then
    some ⟨secs, nanos⟩
  else if secs + nanos / NANOS_PER_SEC < U64 then
    some ⟨secs + nanos / NANOS_PER_SEC, nanos % NANOS_PER_SEC⟩
  else
    none

/-- Rust `Duration::from_millis(millis)`: `millis / 1000` seconds and
`(millis % 1000) * 10^6` sub-second nanoseconds. -/
def Duration.from_millis (millis : Nat) : Duration :=
  ⟨millis / 1000, millis % 1000 * 1000000⟩

/-- Rust `Duration::checked_add`, to which the panicking `Add` impl
delegates: componentwise addition with a carry out of the nanoseconds,
`none` exactly when the `u64` seconds overflow. -/
def Duration.checked_add (a b : Duration) : Option Duration :=
  if a.secs + b.secs < U64 then
    if a.nanos + b.nanos < NANOS_PER_SEC then
      some ⟨a.secs + b.secs, a.nanos + b.nanos⟩
    else if a.secs + b.secs + 1 < U64 then
      some ⟨a.secs + b.secs + 1, a.nanos + b.nanos - NANOS_PER_SEC⟩
    else
      none
  else
    none

/-- Rust `Duration::checked_sub`, to which the panicking `Sub` impl
delegates: componentwise subtraction with a borrow from the seconds,
`none` exactly when the result would be negative. -/
def Duration.checked_sub (a b : Duration) : Option Duration :=
  if b.secs ≤ a.secs then
    if b.nanos ≤ a.nanos then
      some ⟨a.secs - b.secs, a.nanos - b.nanos⟩
    else if 1 ≤ a.secs - b.secs then
      some ⟨a.secs - b.secs - 1, a.nanos + NANOS_PER_SEC - b.nanos⟩
    else
      none
  else
    none

/-- The strict order of Rust's `#[derive(PartialOrd, Ord)]` on `Duration`
(and hence on `JsInstant` / `JsDuration`): lexicographic on
`(secs, nanos)`. -/
def Duration.ltLex (a b : Duration) : Prop :=
  a.secs < b.secs ∨ (a.secs = b.secs ∧ a.nanos < b.nanos)

instance (a b : Duration) : Decidable (a.ltLex b) := by
  unfold Duration.ltLex; infer_instance

/-- The non-strict derived order on `Duration`. -/
def Duration.leLex (a b : Duration) : Prop :=
  a = b ∨ a.ltLex b

instance (a b : Duration) : Decidable (a.leLex b) := by
  unfold Duration.leLex; infer_instance

/-! ### `JsInstant` and `JsDuration` -/

/-- Model of `JsInstant` (src/core/engine/src/context/time.rs): a wrapper
around a `Duration` since the Unix epoch. -/
structure JsInstant where
  inner : Duration
deriving DecidableEq, Repr

/-- `JsInstant::new_unchecked`. -/
def JsInstant.new_unchecked (inner : Duration) : JsInstant :=
  ⟨inner⟩

/-- `JsInstant::new(secs, nanos)`: delegates to `Duration::new`, which
normalizes `nanos ≥ 10^9` by carrying into `secs` (and panics only when
the carried seconds overflow `u64`). -/
def JsInstant.new (secs nanos : Nat) : Option JsInstant :=
  (Duration.new secs nanos).map JsInstant.new_unchecked

/-- `JsInstant::nanos_since_epoch`: `self.inner.as_nanos()` (`u128`, no
truncation). -/
def JsInstant.nanos_since_epoch (i : JsInstant) : Nat :=
  i.inner.as_nanos

/-- `JsInstant::millis_since_epoch`: `self.inner.as_millis() as u64` — the
`as u64` cast truncates, modelled by `% U64`. -/
def JsInstant.millis_since_epoch (i : JsInstant) : Nat :=
  i.inner.as_millis % U64

/-- Model of `JsDuration`: a wrapper around `Duration`. -/
structure JsDuration where
  inner : Duration
deriving DecidableEq, Repr

/-- `JsDuration::from_millis`. -/
def JsDuration.from_millis (millis : Nat) : JsDuration :=
  ⟨Duration.from_millis millis⟩

/-- `JsDuration::as_millis`: `self.inner.as_millis() as u64` (truncating
cast modelled by `% U64`). -/
def JsDuration.as_millis (d : JsDuration) : Nat :=
  d.inner.as_millis % U64

/-- `JsDuration::as_secs`. -/
def JsDuration.as_secs (d : JsDuration) : Nat :=
  d.inner.as_secs

/-- `JsDuration::as_nanos`. -/
def JsDuration.as_nanos (d : JsDuration) : Nat :=
  d.inner.as_nanos

/-- `JsDuration + JsDuration` (from `impl_duration_ops!`): delegates to
the Rust `Duration` addition, which panics (`none`) on overflow. -/
def JsDuration.add (a b : JsDuration) : Option JsDuration :=
  (a.inner.checked_add b.inner).map JsDuration.mk

/-- `JsDuration - JsDuration` (from `impl_duration_ops!`): delegates to
the Rust `Duration` subtraction, which panics (`none`) on underflow. -/
def JsDuration.sub (a b : JsDuration) : Option JsDuration :=
  (a.inner.checked_sub b.inner).map JsDuration.mk

/-- `JsInstant + JsDuration` (from `impl_duration_ops!`). -/
def JsInstant.addDur (a : JsInstant) (d : JsDuration) : Option JsInstant :=
  (a.inner.checked_add d.inner).map JsInstant.mk

/-- `JsInstant - JsDuration` (from `impl_duration_ops!`): panics (`none`)
when the instant would go before the epoch. -/
def JsInstant.subDur (a : JsInstant) (d : JsDuration) : Option JsInstant :=
  (a.inner.checked_sub d.inner).map JsInstant.mk

/-- `impl Sub for JsInstant`: `Instant − Instant = Duration`, panicking
(`none`) on underflow. -/
def JsInstant.subInstant (a b : JsInstant) : Option JsDuration :=
  (a.inner.checked_sub b.inner).map JsDuration.mk

/-! ### The engine's global time slot

`GLOBAL_TIME_NS : Option<u128>` and `GLOBAL_BUMP : u64` are the two
statics of `src/core/engine/src/context/time.rs`; they are modelled as an
explicit state record threaded through the operations. -/

/-- The engine's global time slot: `GLOBAL_TIME_NS` (a `u128` when armed)
and `GLOBAL_BUMP` (a `u64`). -/
structure TimeState where
  time : Option Nat
  bump : Nat
deriving DecidableEq, Repr

/-- The slot at process start: empty, bump zero. -/
def initialState : TimeState :=
  ⟨none, 0⟩

/-- `set_time_nanos(nanos)`: unconditionally arm the slot and reset the
bump counter. -/
def set_time_nanos (nanos : Nat) (_ : TimeState) : TimeState :=
  ⟨some nanos, 0⟩

/-- `clear_time()`: unconditionally empty the slot and reset the bump. -/
def clear_time (_ : TimeState) : TimeState :=
  ⟨none, 0⟩

/-- `next_duration()`: panics (`none`) when the slot is empty; otherwise
emits `Duration::new` of `base + bump` split into seconds and nanoseconds
with truncating `as u64` / `as u32` casts (modelled by `%`), and
post-increments the bump with `u64` wrap-around (`wrapping_add(1)`).
The `u128` sum `base + bump as u128` is modelled with release-mode
wrap-around (`% U128`). -/
def next_duration (s : TimeState) : Option (Duration × TimeState) :=
  match s.time with
  | none => none
  | some base =>
    let total := (base + s.bump) % U128
    let secs := total / NANOS_PER_SEC % U64
    let nanos := total % NANOS_PER_SEC % U32
    (Duration.new secs nanos).map fun d => (d, ⟨some base, (s.bump + 1) % U64⟩)

/-- `StdClock::now`: wraps `next_duration()` in `JsInstant::new_unchecked`;
the panic of an unarmed read propagates as `none`. -/
def StdClock.now (s : TimeState) : Option (JsInstant × TimeState) :=
  (next_duration s).map fun p => (JsInstant.new_unchecked p.1, p.2)

/-- The duration value built by one armed `next_duration` observation of
the `u128` total `t`: the truncating `as u64` / `as u32` casts applied to
`t / 10^9` and `t % 10^9`. -/
def emit (t : Nat) : Duration :=
  ⟨t / NANOS_PER_SEC % U64, t % NANOS_PER_SEC % U32⟩

/-! ### FixedClock -/

/-- Model of `FixedClock`: a mutable `u64` millisecond counter (the
`RefCell<u64>`). -/
structure FixedClock where
  millis : Nat
deriving DecidableEq, Repr

/-- `FixedClock::from_millis`. -/
def FixedClock.from_millis (millis : Nat) : FixedClock :=
  ⟨millis⟩

/-- `FixedClock::forward(millis)`: `+=` on the `u64` counter, modelled
with release-mode wrap-around. -/
def FixedClock.forward (c : FixedClock) (millis : Nat) : FixedClock :=
  ⟨(c.millis + millis) % U64⟩

/-- `Clock::now` for `FixedClock`: reads (without mutating) the counter
and builds `Duration::new(millis / 1000, ((millis % 1000) * 1_000_000) as
u32)`.  The model takes the clock by value and returns no updated clock
because the source mutates nothing. -/
def FixedClock.now (c : FixedClock) : Option JsInstant :=
  (Duration.new (c.millis / 1000) (c.millis % 1000 * 1000000 % U32)).map
    JsInstant.new_unchecked

/-! ### Episodes and reachability -/

/-- State of the slot after `k` successive `StdClock::now` calls; `none`
if any of them panicked. -/
def afterNows (s : TimeState) : Nat → Option TimeState
  | 0 => some s
  | k + 1 => (afterNows s k).bind fun s1 => (next_duration s1).map Prod.snd

/-- The `k`-th (0-based) instant observed by `StdClock::now` after arming
the slot with `set_time_nanos n` from state `s0`. -/
def nthNow (s0 : TimeState) (n k : Nat) : Option JsInstant :=
  (afterNows (set_time_nanos n s0) k).bind fun s => (StdClock.now s).map Prod.fst

/-- Nanoseconds since epoch of the `k`-th observation of an episode. -/
def nthNanos (s0 : TimeState) (n k : Nat) : Option Nat :=
  (nthNow s0 n k).map JsInstant.nanos_since_epoch

/-- Nanoseconds observed by the first `now()` after the re-arm sequence
`set_time_nanos n₁`; `k` observations; `set_time_nanos n₂`. -/
def rearmNanos (s0 : TimeState) (n1 k n2 : Nat) : Option Nat :=
  (afterNows (set_time_nanos n1 s0) k).bind fun s1 => nthNanos s1 n2 0

/-- The operations a caller can perform on the engine's slot. -/
inductive TimeOp where
  | set (n : Nat)
  | clear
  | now

/-- Run a sequence of slot operations; `none` once a `now` panics. -/
def runOps : TimeState → List TimeOp → Option TimeState
  | s, [] => some s
  | s, TimeOp.set n :: rest => runOps (set_time_nanos n s) rest
  | s, TimeOp.clear :: rest => runOps (clear_time s) rest
  | s, TimeOp.now :: rest => (next_duration s).bind fun p => runOps p.2 rest

/-! ### The monotonic_time crate and the whole-process state

`src/utils/monotonic_time/src/lib.rs` defines its own
`GLOBAL_TIME_NS` / `GLOBAL_BUMP` statics with `set_time_nanos`,
`clear_time` and `next_duration` whose bodies are textually identical to
the engine's.  Being distinct static items in a distinct crate, they are
disjoint state; the process state is therefore a pair of slots, and the
crate's operations are the same transition functions applied to the
second component. -/

/-- Whole-process state: the engine's slot and the `monotonic_time`
crate's slot are distinct statics. -/
structure WorldState where
  engine : TimeState
  mono : TimeState
deriving DecidableEq, Repr

/-- Process state at start: both slots empty. -/
def initialWorld : WorldState :=
  ⟨initialState, initialState⟩

/-- The `monotonic_time` crate's `set_time_nanos`, acting on the process
state: it touches only the crate's own statics. -/
def World.mono_set_time_nanos (n : Nat) (w : WorldState) : WorldState :=
  ⟨w.engine, set_time_nanos n w.mono⟩

/-- The `monotonic_time` crate's `clear_time` on the process state. -/
def World.mono_clear_time (w : WorldState) : WorldState :=
  ⟨w.engine, clear_time w.mono⟩

/-- The `monotonic_time` crate's (public) `next_duration` on the process
state. -/
def World.mono_next_duration (w : WorldState) : Option (Duration × WorldState) :=
  (next_duration w.mono).map fun p => (p.1, ⟨w.engine, p.2⟩)

/-- The engine's `StdClock::now` on the process state: it reads and
writes only the engine's statics. -/
def World.engine_now (w : WorldState) : Option (JsInstant × WorldState) :=
  (StdClock.now w.engine).map fun p => (p.1, ⟨p.2, w.mono⟩)

/-- The operations of the `monotonic_time` crate's public surface. -/
inductive MonoOp where
  | set (n : Nat)
  | clear
  | now

/-- Apply one `monotonic_time` operation to the process state; `none`
when its `next_duration` panics. -/
def applyMono (w : WorldState) : MonoOp → Option WorldState
  | MonoOp.set n => some (World.mono_set_time_nanos n w)
  | MonoOp.clear => some (World.mono_clear_time w)
  | MonoOp.now => (World.mono_next_duration w).map Prod.snd

/-! ### Arithmetic lemmas about the Duration representation -/

/-- Sanity: `2 ^ 64` really is the `U64` literal. -/
lemma U64_eq_pow : U64 = 2 ^ 64 := by decide

/-- Characterization of a successful `checked_add` on well-formed
durations: the result is well-formed and adds the total nanoseconds. -/
lemma Duration.checked_add_eq_some {a b z : Duration} (ha : a.wf) (hb : b.wf)
    (h : a.checked_add b = some z) :
    z.wf ∧ z.as_nanos = a.as_nanos + b.as_nanos := by
  unfold Duration.checked_add at h
  unfold Duration.wf Duration.as_nanos NANOS_PER_SEC U64 at *
  split_ifs at h with h1 h2 h3 <;> injection h with h <;> subst h <;>
    refine ⟨⟨?_, ?_⟩, ?_⟩ <;> simp only [] <;> omega

/-- A `checked_add` of well-formed durations succeeds when the total
nanoseconds fit the representation. -/
lemma Duration.checked_add_isSome {a b : Duration} (ha : a.wf) (hb : b.wf)
    (h : a.as_nanos + b.as_nanos < U64 * NANOS_PER_SEC) :
    ∃ z, a.checked_add b = some z := by
  unfold Duration.checked_add
  unfold Duration.wf Duration.as_nanos NANOS_PER_SEC U64 at *
  split_ifs with h1 h2 h3 <;> first | exact ⟨_, rfl⟩ | (exfalso; omega)

/-- Characterization of a successful `checked_sub` on well-formed
durations: the result is well-formed and subtracts the total
nanoseconds. -/
lemma Duration.checked_sub_eq_some {a b z : Duration} (ha : a.wf) (hb : b.wf)
    (h : a.checked_sub b = some z) :
    z.wf ∧ z.as_nanos = a.as_nanos - b.as_nanos := by
  unfold Duration.checked_sub at h
  unfold Duration.wf Duration.as_nanos NANOS_PER_SEC U64 at *
  split_ifs at h with h1 h2 h3 <;> injection h with h <;> subst h <;>
    refine ⟨⟨?_, ?_⟩, ?_⟩ <;> simp only [] <;> omega

/-- A `checked_sub` of well-formed durations succeeds when no underflow
occurs. -/
lemma Duration.checked_sub_isSome {a b : Duration} (ha : a.wf) (hb : b.wf)
    (h : b.as_nanos ≤ a.as_nanos) :
    ∃ z, a.checked_sub b = some z := by
  unfold Duration.checked_sub
  unfold Duration.wf Duration.as_nanos NANOS_PER_SEC U64 at *
  split_ifs with h1 h2 h3 <;> first | exact ⟨_, rfl⟩ | (exfalso; omega)

/-- `checked_sub` fails (the Rust `Sub` impl panics) whenever the left
operand is lexicographically smaller; no well-formedness is needed. -/
lemma Duration.checked_sub_eq_none_of_ltLex {a b : Duration} (h : a.ltLex b) :
    a.checked_sub b = none := by
  unfold Duration.checked_sub
  unfold Duration.ltLex at h
  split_ifs with h1 h2 h3 <;> first | rfl | (exfalso; omega)

/-- Total nanoseconds determine a well-formed duration. -/
lemma Duration.as_nanos_inj {a b : Duration} (ha : a.wf) (hb : b.wf)
    (h : a.as_nanos = b.as_nanos) : a = b := by
  cases a with
  | mk sa na =>
    cases b with
    | mk sb nb =>
      unfold Duration.wf Duration.as_nanos NANOS_PER_SEC U64 at *
      simp only [Duration.mk.injEq]
      simp only [] at h ha hb
      omega

/-- On well-formed durations the derived lexicographic strict order is
the order of total nanoseconds. -/
lemma Duration.ltLex_iff {a b : Duration} (ha : a.wf) (hb : b.wf) :
    a.ltLex b ↔ a.as_nanos < b.as_nanos := by
  unfold Duration.ltLex Duration.wf Duration.as_nanos NANOS_PER_SEC U64 at *
  omega

/-- On well-formed durations the derived lexicographic order is the order
of total nanoseconds. -/
lemma Duration.leLex_iff {a b : Duration} (ha : a.wf) (hb : b.wf) :
    a.leLex b ↔ a.as_nanos ≤ b.as_nanos := by
  unfold Duration.leLex
  constructor
  · intro h
    rcases h with h | h
    · exact Nat.le_of_eq (by rw [h])
    · exact Nat.le_of_lt ((Duration.ltLex_iff ha hb).mp h)
  · intro h
    rcases Nat.lt_or_ge a.as_nanos b.as_nanos with h1 | h1
    · exact Or.inr ((Duration.ltLex_iff ha hb).mpr h1)
    · exact Or.inl (Duration.as_nanos_inj ha hb (Nat.le_antisymm h h1))

/-- Total nanoseconds of a well-formed duration are below
`U64 * NANOS_PER_SEC`. -/
lemma Duration.as_nanos_lt {a : Duration} (ha : a.wf) :
    a.as_nanos < U64 * NANOS_PER_SEC := by
  unfold Duration.wf Duration.as_nanos NANOS_PER_SEC U64 at *
  omega

/-! ### The armed slot -/

/-- The emitted duration always satisfies the representation
invariant. -/
lemma emit_wf (t : Nat) : (emit t).wf := by
  unfold emit Duration.wf U64 U32 NANOS_PER_SEC
  refine ⟨?_, ?_⟩ <;> simp only [] <;> omega

/-- When the total fits `u64` seconds, the emitted duration is exact. -/
lemma emit_as_nanos {t : Nat} (h : t < U64 * NANOS_PER_SEC) :
    (emit t).as_nanos = t := by
  unfold emit Duration.as_nanos U64 U32 NANOS_PER_SEC at *
  simp only [] at *
  omega

/-- On an armed slot, `next_duration` never panics: it emits the casted
total `base + bump` and bumps the counter with `u64` wrap-around. -/
lemma next_duration_armed (base b : Nat) :
    next_duration ⟨some base, b⟩ =
      some (emit ((base + b) % U128), ⟨some base, (b + 1) % U64⟩) := by
  have h : (base + b) % U128 % NANOS_PER_SEC % U32 < NANOS_PER_SEC := by
    unfold NANOS_PER_SEC U32 U128
    omega
  simp [next_duration, Duration.new, emit, h]

/-- State evolution of an armed slot under repeated `now()`. -/
lemma afterNows_armed (base b : Nat) (hb : b < U64) (k : Nat) :
    afterNows ⟨some base, b⟩ k = some ⟨some base, (b + k) % U64⟩ := by
  induction k with
  | zero =>
      simp [afterNows, Nat.mod_eq_of_lt hb]
  | succ k ih =>
      rw [afterNows, ih]
      simp [next_duration_armed]
      unfold U64 at *
      omega

/-- Closed form of the `k`-th observation of an episode armed with
`n`. -/
lemma nthNow_eq (s0 : TimeState) (n k : Nat) :
    nthNow s0 n k =
      some (JsInstant.new_unchecked (emit ((n + k % U64) % U128))) := by
  have h0 : (0 : Nat) < U64 := by unfold U64; omega
  rw [nthNow]
  show (afterNows ⟨some n, 0⟩ k).bind _ = _
  rw [afterNows_armed n 0 h0 k]
  simp [StdClock.now, next_duration_armed]

/-- Closed form of the `k`-th observed nanoseconds of an episode. -/
lemma nthNanos_eq (s0 : TimeState) (n k : Nat) :
    nthNanos s0 n k = some ((emit ((n + k % U64) % U128)).as_nanos) := by
  rw [nthNanos, nthNow_eq]
  rfl

/-- Within the exact range, the first observation of an episode armed
with `n` reads back exactly `n`. -/
lemma nthNanos_zero (s0 : TimeState) (n : Nat) (hn : n < U64 * NANOS_PER_SEC) :
    nthNanos s0 n 0 = some n := by
  rw [nthNanos_eq]
  have h1 : (n + 0 % U64) % U128 = n := by
    unfold U64 U128 NANOS_PER_SEC at *
    omega
  rw [h1, emit_as_nanos hn]

/-- On a state whose slot is empty, `StdClock::now` panics. -/
lemma StdClock.now_empty {s : TimeState} (h : s.time = none) :
    StdClock.now s = none := by
  cases s with
  | mk t b =>
    cases t with
    | none => rfl
    | some v => exact Option.noConfusion h

/-! ### Claims -/

/-- C1 (amended). Within one armed episode with base `n` and fewer than
`2^64` observations, and provided additionally that `n + k ≤ 2^64 · 10^9`
(so the `u128` total survives the truncating `as u64` seconds cast),
successive `StdClock::now` results are strictly increasing and each
successor's `nanos_since_epoch` exceeds its predecessor's by exactly
one nanosecond. -/
theorem episode_strict_increase (s0 : TimeState) (n k i : Nat)
    (hk : k < U64) (hn : n + k ≤ U64 * NANOS_PER_SEC) (hi : i + 1 < k) :
    ∃ a b : JsInstant,
      nthNow s0 n i = some a ∧ nthNow s0 n (i + 1) = some b ∧
      a.inner.ltLex b.inner ∧
      b.nanos_since_epoch = a.nanos_since_epoch + 1 := by
  have hbi : n + i < U64 * NANOS_PER_SEC := by
    unfold U64 NANOS_PER_SEC at *; omega
  have hbi1 : n + (i + 1) < U64 * NANOS_PER_SEC := by
    unfold U64 NANOS_PER_SEC at *; omega
  have hiU : i % U64 = i := by unfold U64 at *; omega
  have hi1U : (i + 1) % U64 = i + 1 := by unfold U64 at *; omega
  have hti : (n + i) % U128 = n + i := by
    unfold U64 U128 NANOS_PER_SEC at *; omega
  have hti1 : (n + (i + 1)) % U128 = n + (i + 1) := by
    unfold U64 U128 NANOS_PER_SEC at *; omega
  refine ⟨_, _, nthNow_eq s0 n i, nthNow_eq s0 n (i + 1), ?_, ?_⟩
  · show (emit ((n + i % U64) % U128)).ltLex (emit ((n + (i + 1) % U64) % U128))
    rw [hiU, hi1U, hti, hti1]
    rw [Duration.ltLex_iff (emit_wf _) (emit_wf _)]
    rw [emit_as_nanos hbi, emit_as_nanos hbi1]
    omega
  · show (emit ((n + (i + 1) % U64) % U128)).as_nanos =
      (emit ((n + i % U64) % U128)).as_nanos + 1
    rw [hiU, hi1U, hti, hti1]
    rw [emit_as_nanos hbi, emit_as_nanos hbi1]
    omega

/-- Witness for C1 at the test scenario of the source: base
`1.7 · 10^18`, an episode of two observations. -/
theorem episode_strict_increase_witness :
    ∃ a b : JsInstant,
      nthNow initialState 1700000000000000000 0 = some a ∧
      nthNow initialState 1700000000000000000 (0 + 1) = some b ∧
      a.inner.ltLex b.inner ∧
      b.nanos_since_epoch = a.nanos_since_epoch + 1 :=
  episode_strict_increase initialState 1700000000000000000 2 0
    (by decide) (by decide) (by decide)

/-- Counterexample to C1 as stated: arming with base
`2^64 · 10^9 − 1` (a valid `u128`, an episode of two observations, fewer
than `2^64`), the second observation's `nanos_since_epoch` is `0` — it
drops instead of exceeding its predecessor by one, because the `as u64`
cast of the seconds truncates. -/
theorem episode_strict_increase_cex :
    nthNanos initialState (U64 * NANOS_PER_SEC - 1) 0 =
      some (U64 * NANOS_PER_SEC - 1) ∧
    nthNanos initialState (U64 * NANOS_PER_SEC - 1) 1 = some 0 ∧
    nthNanos initialState (U64 * NANOS_PER_SEC - 1) 1 ≠
      some ((U64 * NANOS_PER_SEC - 1) + 1) := by
  decide

/-- C2 (amended). Immediately after `set_time_nanos n` — provided
`n < 2^64 · 10^9`, so the truncating `as u64` seconds cast is exact — the
first deterministic `now()` returns `nanos_since_epoch` exactly `n`. -/
theorem base_anchoring (s0 : TimeState) (n : Nat)
    (hn : n < U64 * NANOS_PER_SEC) :
    nthNanos s0 n 0 = some n :=
  nthNanos_zero s0 n hn

/-- Witness for C2 at the block time used by the source's own test. -/
theorem base_anchoring_witness :
    nthNanos initialState 1700000000000000000 0 = some 1700000000000000000 :=
  base_anchoring initialState 1700000000000000000 (by decide)

/-- Counterexample to C2 as stated: for `n = 2^64 · 10^9` (a valid
`u128`), the first `now()` after `set_time_nanos n` returns `0`, not `n`,
because `(total / 10^9) as u64` truncates. -/
theorem base_anchoring_cex :
    nthNanos initialState (U64 * NANOS_PER_SEC) 0 = some 0 ∧
    nthNanos initialState (U64 * NANOS_PER_SEC) 0 ≠
      some (U64 * NANOS_PER_SEC) := by
  decide

/-- C3 (confirmed). From every reachable state whose slot is empty —
the initial state before any `set_time_nanos`, or any state after
`clear_time` — calling the deterministic `StdClock::now` panics
(modelled as `none`). -/
theorem fatal_on_unarmed (ops : List TimeOp) (s : TimeState)
    (_hreach : runOps initialState ops = some s) (hempty : s.time = none) :
    StdClock.now s = none :=
  StdClock.now_empty hempty

/-- Witness for C3: the state reached by `set_time_nanos 5` then
`clear_time` is empty, and `now()` on it panics. -/
theorem fatal_on_unarmed_witness : StdClock.now ⟨none, 0⟩ = none :=
  fatal_on_unarmed [TimeOp.set 5, TimeOp.clear] ⟨none, 0⟩ (by decide) rfl

/-- C6 (amended). After `set_time_nanos n₁`, any number `k` of
observations, then `set_time_nanos n₂`, the next `now()` returns exactly
`n₂` nanoseconds since epoch — provided `n₂ < 2^64 · 10^9` so the
truncating seconds cast is exact; `n₁` and `k` are unrestricted. -/
theorem rearm_resets (s0 : TimeState) (n1 k n2 : Nat)
    (hn2 : n2 < U64 * NANOS_PER_SEC) :
    rearmNanos s0 n1 k n2 = some n2 := by
  have h0 : (0 : Nat) < U64 := by unfold U64; omega
  unfold rearmNanos
  rw [show set_time_nanos n1 s0 = ⟨some n1, 0⟩ from rfl,
    afterNows_armed n1 0 h0 k]
  exact nthNanos_zero _ n2 hn2

/-- Witness for C6 at the spec's scenario S3 (two observations between
the two arms). -/
theorem rearm_resets_witness :
    rearmNanos initialState 10000000000 2 20000000000 = some 20000000000 :=
  rearm_resets initialState 10000000000 2 20000000000 (by decide)

/-- Counterexample to C6 as stated: re-arming with
`n₂ = 2^64 · 10^9` (a valid `u128`) after two observations yields `0`,
not `n₂`, because of the truncating `as u64` seconds cast. -/
theorem rearm_resets_cex :
    rearmNanos initialState 10000000000 2 (U64 * NANOS_PER_SEC) = some 0 ∧
    rearmNanos initialState 10000000000 2 (U64 * NANOS_PER_SEC) ≠
      some (U64 * NANOS_PER_SEC) := by
  decide

/-- C4 (amended). `Instant::new(s, nanos)` with `nanos ≥ 10^9` is not
rejected: `Duration::new` normalizes by carrying `nanos / 10^9` whole
seconds into `secs`, failing (panic, modelled `none`) only when the
carried seconds overflow `u64`; every constructed instant satisfies
`nanos_since_epoch = s · 10^9 + nanos` with a sub-second component below
`10^9`. -/
theorem instant_new_normalizes (s n : Nat) (hs : s < U64) (_hn : n < U32) :
    (JsInstant.new s n = none ↔ U64 ≤ s + n / NANOS_PER_SEC) ∧
    ∀ i, JsInstant.new s n = some i →
      i.nanos_since_epoch = s * NANOS_PER_SEC + n ∧
      i.inner.nanos < NANOS_PER_SEC := by
  unfold JsInstant.new Duration.new
  split_ifs with h1 h2
  · refine ⟨by simp; unfold NANOS_PER_SEC U64 at *; omega, ?_⟩
    intro i hi
    simp at hi
    subst hi
    exact ⟨rfl, h1⟩
  · refine ⟨by simp; unfold NANOS_PER_SEC U64 at *; omega, ?_⟩
    intro i hi
    simp at hi
    subst hi
    constructor
    · show (s + n / NANOS_PER_SEC) * NANOS_PER_SEC + n % NANOS_PER_SEC =
        s * NANOS_PER_SEC + n
      unfold NANOS_PER_SEC
      omega
    · show n % NANOS_PER_SEC < NANOS_PER_SEC
      unfold NANOS_PER_SEC
      omega
  · refine ⟨by simp; unfold NANOS_PER_SEC U64 at *; omega, ?_⟩
    intro i hi
    simp at hi

/-- Witness for C4: `Instant::new(0, 1_500_000_000)` (nanos above one
second) is accepted and normalized. -/
theorem instant_new_normalizes_witness :
    (JsInstant.new 0 1500000000 = none ↔
      U64 ≤ 0 + 1500000000 / NANOS_PER_SEC) ∧
    ∀ i, JsInstant.new 0 1500000000 = some i →
      i.nanos_since_epoch = 0 * NANOS_PER_SEC + 1500000000 ∧
      i.inner.nanos < NANOS_PER_SEC :=
  instant_new_normalizes 0 1500000000 (by decide) (by decide)

/-- Counterexample to C4 as stated: `Instant::new(0, 10^9)` has
`nanos ≥ 10^9` yet yields an instant (one second since epoch) instead of
being rejected. -/
theorem instant_new_rejects_cex :
    JsInstant.new 0 NANOS_PER_SEC = some (JsInstant.new_unchecked ⟨1, 0⟩) ∧
    JsInstant.new 0 NANOS_PER_SEC ≠ none := by
  decide

/-- C5 (confirmed). Subtracting a strictly larger `JsDuration` does not
produce an ordinary duration: the underlying Rust `Sub` panics (a domain
error, modelled `none`), and likewise `JsInstant − JsDuration` when the
instant's time since epoch is smaller than the subtracted duration. -/
theorem sub_underflow_fails (a b : JsDuration) (h : a.inner.ltLex b.inner) :
    JsDuration.sub a b = none ∧
    JsInstant.subDur (JsInstant.new_unchecked a.inner) b = none := by
  constructor
  · unfold JsDuration.sub
    rw [Duration.checked_sub_eq_none_of_ltLex h]
    rfl
  · show (a.inner.checked_sub b.inner).map JsInstant.mk = none
    rw [Duration.checked_sub_eq_none_of_ltLex h]
    rfl

/-- Witness for C5: 1 ms − 2 ms fails on durations and on an instant one
millisecond after the epoch. -/
theorem sub_underflow_fails_witness :
    JsDuration.sub (JsDuration.from_millis 1) (JsDuration.from_millis 2) =
      none ∧
    JsInstant.subDur
      (JsInstant.new_unchecked (JsDuration.from_millis 1).inner)
      (JsDuration.from_millis 2) = none :=
  sub_underflow_fails (JsDuration.from_millis 1) (JsDuration.from_millis 2)
    (by decide)

/-- C7 (confirmed). Arithmetic round-trips: for instants `a ≥ b` the
difference `a − b` exists and `b + (a − b) = a`; and whenever
`d₁ + d₂` does not overflow, `(d₁ + d₂) − d₂ = d₁`. -/
theorem arithmetic_roundtrips (a b : JsInstant) (d1 d2 s2 : JsDuration)
    (hwa : a.inner.wf) (hwb : b.inner.wf) (hab : b.inner.leLex a.inner)
    (hw1 : d1.inner.wf) (hw2 : d2.inner.wf)
    (hadd : JsDuration.add d1 d2 = some s2) :
    (∃ d : JsDuration, JsInstant.subInstant a b = some d ∧
      JsInstant.addDur b d = some a) ∧
    JsDuration.sub s2 d2 = some d1 := by
  have hba : b.inner.as_nanos ≤ a.inner.as_nanos :=
    (Duration.leLex_iff hwb hwa).mp hab
  obtain ⟨z, hz⟩ := Duration.checked_sub_isSome hwa hwb hba
  obtain ⟨hzwf, hznanos⟩ := Duration.checked_sub_eq_some hwa hwb hz
  have hsum : b.inner.as_nanos + z.as_nanos < U64 * NANOS_PER_SEC := by
    rw [hznanos]
    have := Duration.as_nanos_lt hwa
    omega
  obtain ⟨w, hw⟩ := Duration.checked_add_isSome hwb hzwf hsum
  obtain ⟨hwwf, hwnanos⟩ := Duration.checked_add_eq_some hwb hzwf hw
  have hwa2 : w = a.inner :=
    Duration.as_nanos_inj hwwf hwa (by rw [hwnanos, hznanos]; omega)
  have hadd2 : d1.inner.checked_add d2.inner = some s2.inner := by
    unfold JsDuration.add at hadd
    cases hca : d1.inner.checked_add d2.inner with
    | none => rw [hca] at hadd; exact Option.noConfusion hadd
    | some z2 =>
        rw [hca] at hadd
        simp at hadd
        subst hadd
        rfl
  obtain ⟨hs2wf, hs2n⟩ := Duration.checked_add_eq_some hw1 hw2 hadd2
  have hle : d2.inner.as_nanos ≤ s2.inner.as_nanos := by
    rw [hs2n]; omega
  obtain ⟨u, hu⟩ := Duration.checked_sub_isSome hs2wf hw2 hle
  obtain ⟨huwf, hun⟩ := Duration.checked_sub_eq_some hs2wf hw2 hu
  have hud1 : u = d1.inner :=
    Duration.as_nanos_inj huwf hw1 (by rw [hun, hs2n]; omega)
  refine ⟨⟨⟨z⟩, ?_, ?_⟩, ?_⟩
  · unfold JsInstant.subInstant
    rw [hz]
    rfl
  · show (b.inner.checked_add z).map JsInstant.mk = some a
    rw [hw, hwa2]
    rfl
  · unfold JsDuration.sub
    show (s2.inner.checked_sub d2.inner).map JsDuration.mk = some d1
    rw [hu, hud1]
    rfl

/-- Witness for C7 at concrete values: instants 10.0000005 s and
3.0000007 s since epoch; durations 1.5 s and 2.7 s whose sum 4.2 s
carries a nanosecond overflow. -/
theorem arithmetic_roundtrips_witness :
    (∃ d : JsDuration,
      JsInstant.subInstant (JsInstant.new_unchecked ⟨10, 500⟩)
        (JsInstant.new_unchecked ⟨3, 700⟩) = some d ∧
      JsInstant.addDur (JsInstant.new_unchecked ⟨3, 700⟩) d =
        some (JsInstant.new_unchecked ⟨10, 500⟩)) ∧
    JsDuration.sub ⟨⟨4, 200000000⟩⟩ (JsDuration.from_millis 2700) =
      some (JsDuration.from_millis 1500) :=
  arithmetic_roundtrips (JsInstant.new_unchecked ⟨10, 500⟩)
    (JsInstant.new_unchecked ⟨3, 700⟩) (JsDuration.from_millis 1500)
    (JsDuration.from_millis 2700) ⟨⟨4, 200000000⟩⟩
    (by decide) (by decide) (by decide) (by decide) (by decide) (by decide)

/-- C8 (confirmed). Unit projections: `Duration::from_millis(m)`
reads back `m` via `as_millis` for every `u64` value `m`, and
`Instant::new(s, n)` with `n < 10^9` yields the instant whose
`nanos_since_epoch` is `s · 10^9 + n`. -/
theorem unit_projection (m s n : Nat) (hm : m < U64) (_hs : s < U64)
    (hn : n < NANOS_PER_SEC) :
    (JsDuration.from_millis m).as_millis = m ∧
    ∃ i : JsInstant, JsInstant.new s n = some i ∧
      i.nanos_since_epoch = s * NANOS_PER_SEC + n := by
  constructor
  · show (m / 1000 * 1000 + m % 1000 * 1000000 / 1000000) % U64 = m
    unfold U64 at *
    omega
  · refine ⟨JsInstant.new_unchecked ⟨s, n⟩, ?_, rfl⟩
    unfold JsInstant.new Duration.new
    rw [if_pos hn]
    rfl

/-- Witness for C8 at concrete values. -/
theorem unit_projection_witness :
    (JsDuration.from_millis 123456).as_millis = 123456 ∧
    ∃ i : JsInstant, JsInstant.new 5 999999999 = some i ∧
      i.nanos_since_epoch = 5 * NANOS_PER_SEC + 999999999 :=
  unit_projection 123456 5 999999999 (by decide) (by decide) (by decide)

/-- Value of `FixedClock::now` as a function of the counter: seconds
`millis / 1000`, sub-second nanoseconds `(millis % 1000) · 10^6`. -/
lemma FixedClock.now_eq (c : FixedClock) :
    c.now = some (JsInstant.new_unchecked
      ⟨c.millis / 1000, c.millis % 1000 * 1000000⟩) := by
  unfold FixedClock.now Duration.new
  have h1 : c.millis % 1000 * 1000000 % U32 = c.millis % 1000 * 1000000 := by
    unfold U32
    omega
  rw [h1, if_pos]
  · rfl
  · unfold NANOS_PER_SEC
    omega

/-- C9 (amended). `FixedClock::from_millis(m).now()` returns the instant
with seconds `m / 1000` and nanoseconds `(m % 1000) · 10^6` (reading,
never mutating, the counter — `now` is modelled as a pure function of the
clock, so repeated calls agree by construction), and `forward(k)`
increases the counter by exactly `k`, so a subsequent `now()` reflects
`m + k` — provided `m + k` does not overflow the `u64` counter. -/
theorem fixed_clock_behaviour (m k : Nat) (_hm : m < U64)
    (hmk : m + k < U64) :
    (FixedClock.from_millis m).now =
      some (JsInstant.new_unchecked ⟨m / 1000, m % 1000 * 1000000⟩) ∧
    ((FixedClock.from_millis m).forward k).millis = m + k ∧
    ((FixedClock.from_millis m).forward k).now =
      some (JsInstant.new_unchecked
        ⟨(m + k) / 1000, (m + k) % 1000 * 1000000⟩) := by
  have hfwd : (FixedClock.from_millis m).forward k = (⟨m + k⟩ : FixedClock) := by
    show (⟨(m + k) % U64⟩ : FixedClock) = ⟨m + k⟩
    exact congrArg FixedClock.mk (Nat.mod_eq_of_lt hmk)
  refine ⟨FixedClock.now_eq ⟨m⟩, ?_, ?_⟩
  · rw [hfwd]
  · rw [hfwd]
    exact FixedClock.now_eq ⟨m + k⟩

/-- Witness for C9 at the spec's scenario S5: a fixed clock at 500 ms
moved forward by 250 ms. -/
theorem fixed_clock_behaviour_witness :
    (FixedClock.from_millis 500).now =
      some (JsInstant.new_unchecked ⟨500 / 1000, 500 % 1000 * 1000000⟩) ∧
    ((FixedClock.from_millis 500).forward 250).millis = 500 + 250 ∧
    ((FixedClock.from_millis 500).forward 250).now =
      some (JsInstant.new_unchecked
        ⟨(500 + 250) / 1000, (500 + 250) % 1000 * 1000000⟩) :=
  fixed_clock_behaviour 500 250 (by decide) (by decide)

/-- Counterexample to C9 as stated: at the largest `u64` counter value,
`forward(1)` wraps the counter to `0` instead of increasing it by one
millisecond. -/
theorem fixed_clock_behaviour_cex :
    ((FixedClock.from_millis (U64 - 1)).forward 1).millis = 0 ∧
    (U64 - 1) + 1 ≠ 0 := by
  decide

/-- C10 (confirmed). The two crates' statics are disjoint: every
operation of the `monotonic_time` crate — in particular its
`set_time_nanos` — leaves the engine's slot unchanged, leaves the
engine's `StdClock::now` observation unchanged, and the engine's `now()`
still panics whenever the engine's own slot was never armed. -/
theorem mono_slot_disjoint (w w2 : WorldState) (op : MonoOp)
    (h : applyMono w op = some w2) :
    w2.engine = w.engine ∧
    (World.engine_now w2).map Prod.fst =
      (World.engine_now w).map Prod.fst ∧
    (w.engine.time = none → World.engine_now w2 = none) := by
  have heng : w2.engine = w.engine := by
    cases op with
    | set n =>
        unfold applyMono World.mono_set_time_nanos at h
        injection h with h
        rw [← h]
    | clear =>
        unfold applyMono World.mono_clear_time at h
        injection h with h
        rw [← h]
    | now =>
        unfold applyMono World.mono_next_duration at h
        cases hnd : next_duration w.mono with
        | none => rw [hnd] at h; exact Option.noConfusion h
        | some p =>
            rw [hnd] at h
            simp at h
            rw [← h]
  refine ⟨heng, ?_, ?_⟩
  · unfold World.engine_now
    rw [heng]
    cases StdClock.now w.engine with
    | none => rfl
    | some p => rfl
  · intro he
    unfold World.engine_now
    rw [heng, StdClock.now_empty he]
    rfl

/-- Witness for C10: arming the `monotonic_time` slot with 42 from the
initial process state leaves the engine slot empty and its `now()`
fatal. -/
theorem mono_slot_disjoint_witness :
    (⟨⟨none, 0⟩, ⟨some 42, 0⟩⟩ : WorldState).engine = initialWorld.engine ∧
    (World.engine_now ⟨⟨none, 0⟩, ⟨some 42, 0⟩⟩).map Prod.fst =
      (World.engine_now initialWorld).map Prod.fst ∧
    (initialWorld.engine.time = none →
      World.engine_now ⟨⟨none, 0⟩, ⟨some 42, 0⟩⟩ = none) :=
  mono_slot_disjoint initialWorld ⟨⟨none, 0⟩, ⟨some 42, 0⟩⟩
    (MonoOp.set 42) (by decide)

end Boa
